import Mathlib

/-!
A verification development for the Yahoo News comment-collection repository
(src/comment_scraper.py and src/main.py).

The Python source is shallowly embedded: pure fragments become Lean
functions, the page-fetching effects of the two harvest phases become
explicit functions from page numbers to fetch outcomes, and the
process-global credential state of the LLM orchestrator becomes explicit
state passing.  All definitions are translated from the source files; the
theorems at the end settle the frozen specification claims.
-/

namespace YahooNews

/-! ## Embedding of comment_scraper.fetch_comments_hybrid

A fetched comment block (one `article` element) is modelled by the data the
extractor reads from it: the optional `h2` author text and the stripped
texts of its `p` children.  A page fetch either fails (Selenium exception,
HTTP 404 or request error: Python breaks the loop) or yields a list of
article elements.
-/

/-- MAX_SELENIUM_PAGES = 10 in comment_scraper.py. -/
def MAX_SELENIUM_PAGES : Nat := 10

/-- One `article` element as seen by the extractor: `userName` is the text
of the `h2` tag when present (`art.find` h2), `paragraphs` the stripped
texts of the `p` tags. -/
structure Article where
  userName : Option String
  paragraphs : List String
deriving DecidableEq

/-- Python `max(list, key=len)`: the first element of maximal length
(Python max keeps the current candidate unless a strictly longer one
appears).  The empty case is unreachable in source (guarded by `if p_tags`)
and yields the empty string, matching `comment_body = ""`. -/
def maxByLen : List String → String
  | [] => ""
  | h :: t => t.foldl (fun acc s => if acc.length < s.length then s else acc) h

/-- The moderation / system-message denylist of comment_scraper.py
(identical literal list in both phases). -/
def ignorePhrases : List String :=
  ["このコメントを削除しますか", "コメントを削除しました", "違反報告する",
   "非表示・報告", "投稿を受け付けました"]

/-- Character-list version of Python `str.startswith` used by the
substring test below. -/
def charsStart : List Char → List Char → Bool
  | [], _ => true
  | _ :: _, [] => false
  | a :: as, b :: bs => a == b && charsStart as bs

/-- Does the needle occur as a contiguous run inside the haystack
(character-list version of Python `x in s`). -/
def charsSub (needle : List Char) : List Char → Bool
  | [] => charsStart needle []
  | c :: cs => charsStart needle (c :: cs) || charsSub needle cs

/-- Python `x in comment_body` substring containment on strings. -/
def strHasSub (needle hay : String) : Bool :=
  charsSub needle.data hay.data

/-- Python `s.startswith(pre)` on the character lists. -/
def strStarts (s pre : String) : Bool :=
  charsStart pre.data s.data

/-- Python `s.strip()`: drop leading and trailing whitespace. -/
def pyStrip (s : String) : String :=
  String.mk (((s.data.dropWhile Char.isWhitespace).reverse.dropWhile
    Char.isWhitespace).reverse)

/-- The per-article extraction shared verbatim by Phase 1 and Phase 2 of
fetch_comments_hybrid: author defaults to 匿名, the body is the longest
paragraph, an empty body or a body containing a denylist phrase yields no
record, otherwise the record is the full text
`【投稿者: user】\n body` (the dedup key). -/
def extractFullText (art : Article) : Option String :=
  let userName := art.userName.getD "匿名"
  let commentBody := match art.paragraphs with
    | [] => ""
    | h :: t => maxByLen (h :: t)
  if commentBody = "" then none
  else if ignorePhrases.any (fun x => strHasSub x commentBody) then none
  else some ("【投稿者: " ++ userName ++ "】\n" ++ commentBody)

/-- One iteration of the inner `for art in articles` loop.  The state is
`(seen_comments, all_comments_data, new_cnt)`. -/
def stepArticle (st : List String × List String × Nat) (art : Article) :
    List String × List String × Nat :=
  match extractFullText art with
  | none => st
  | some fullText =>
    if fullText ∈ st.1 then st
    else (fullText :: st.1, st.2.1 ++ [fullText], st.2.2 + 1)

/-- Processing of one fetched page: fold the article loop over the page
content, starting from `new_cnt = 0`. -/
def processPage (arts : List Article) (seen acc : List String) :
    List String × List String × Nat :=
  arts.foldl stepArticle (seen, acc, 0)

/-- The page loop shared by both phases: at each page, a failed fetch
(`none`: Selenium exception, HTTP 404 or request error) breaks, an empty
article list breaks, a page with zero new records breaks after its dedup
state is kept, otherwise the loop moves to the next page.  Phase 1 runs it
with fuel MAX_SELENIUM_PAGES from page 1; Phase 2 runs it with arbitrary
fuel (the Python loop is unbounded) from its computed start page. -/
def phaseLoop (fetch : Nat → Option (List Article)) :
    Nat → Nat → List String → List String → List String × List String
  | 0, _, seen, acc => (seen, acc)
  | fuel + 1, page, seen, acc =>
    match fetch page with
    | none => (seen, acc)
    | some arts =>
      if arts = [] then (seen, acc)
      else
        let r := processPage arts seen acc
        if r.2.2 = 0 then (r.1, r.2.1)
        else phaseLoop fetch fuel (page + 1) r.1 r.2.1

/-- Phase 1 of fetch_comments_hybrid: when the Selenium driver initialized
(`driverOk`), pages 1..MAX_SELENIUM_PAGES are fetched with the rendering
client; when `setup_driver` returned None, Phase 1 is skipped and the
state stays empty. -/
def phase1Result (driverOk : Bool) (fetchR : Nat → Option (List Article)) :
    List String × List String :=
  if driverOk then phaseLoop fetchR MAX_SELENIUM_PAGES 1 [] [] else ([], [])

/-- The Phase 2 start-page computation of fetch_comments_hybrid
(lines 163-165): `(limit_for_ai // 10) + 1`, plus one when the count is
not a multiple of 10, then clamped up to MAX_SELENIUM_PAGES + 1. -/
def startPage (limitForAi : Nat) : Nat :=
  let s := limitForAi / 10 + 1
  let s := if limitForAi % 10 ≠ 0 then s + 1 else s
  if s ≤ MAX_SELENIUM_PAGES then MAX_SELENIUM_PAGES + 1 else s

/-- The dedup state after both phases: Phase 2 continues the page loop with
the plain client from the computed start page, reusing the seen set and
accumulator of Phase 1.  The second component is `all_comments_data` in
discovery order. -/
def hybridState (driverOk : Bool) (fetchR fetchQ : Nat → Option (List Article))
    (fuel2 : Nat) : List String × List String :=
  phaseLoop fetchQ fuel2 (startPage (phase1Result driverOk fetchR).2.length)
    (phase1Result driverOk fetchR).1 (phase1Result driverOk fetchR).2

/-- The chunking loop of fetch_comments_hybrid (lines 208-213), with an
explicit structural fuel so that it evaluates by reduction: each step
slices off the next 10 records.  The fuel is always instantiated with the
list length, which bounds the number of slices, so the 0-fuel non-empty
case is unreachable. -/
def chunks10Go : Nat → List String → List (List String)
  | _, [] => []
  | 0, _ :: _ => []
  | fuel + 1, s :: rest => ((s :: rest).take 10) :: chunks10Go fuel (rest.drop 9)

/-- The chunking of fetch_comments_hybrid:
`for i in range(0, len(data), 10)` slices of size 10. -/
def chunks10 (l : List String) : List (List String) :=
  chunks10Go l.length l

/-- merged_columns: each chunk of 10 records joined with a blank line. -/
def mergedColumns (l : List String) : List String :=
  (chunks10 l).map (String.intercalate "\n\n")

/-- fetch_comments_hybrid, returning `(merged_columns, ai_target_text)`:
the stored chunks over the full two-phase accumulator, and the AI text
joined from the Phase-1 records only (computed before Phase 2 runs). -/
def fetch_comments_hybrid (driverOk : Bool)
    (fetchR fetchQ : Nat → Option (List Article)) (fuel2 : Nat) :
    List String × String :=
  (mergedColumns (hybridState driverOk fetchR fetchQ fuel2).2,
   String.intercalate "\n" (phase1Result driverOk fetchR).2)

/-! ## Embedding of the main.py LLM orchestrator

The process-global pair `CURRENT_KEY_INDEX` / `REQUEST_COUNT_PER_KEY`
becomes an explicit `KeyState`, threaded through the calls; `n` is the
length of AVAILABLE_API_KEYS.  Both mutators return early when the key
pool is empty, as the Python guards do.
-/

/-- MAX_REQUESTS_BEFORE_ROTATE = 20 in main.py. -/
def MAX_REQUESTS_BEFORE_ROTATE : Nat := 20

/-- The global credential cursor and per-credential call counter. -/
structure KeyState where
  idx : Nat
  cnt : Nat
deriving DecidableEq

/-- rotate_api_key: advance the cursor round-robin and reset the counter
(no-op on an empty pool). -/
def rotate_api_key (n : Nat) (s : KeyState) : KeyState :=
  if n = 0 then s else ⟨(s.idx + 1) % n, 0⟩

/-- increment_request_count: bump the counter and rotate once it reaches
MAX_REQUESTS_BEFORE_ROTATE (no-op on an empty pool). -/
def increment_request_count (n : Nat) (s : KeyState) : KeyState :=
  if n = 0 then s
  else
    let c := s.cnt + 1
    if MAX_REQUESTS_BEFORE_ROTATE ≤ c then rotate_api_key n ⟨s.idx, c⟩
    else ⟨s.idx, c⟩

/-- The global state after `k` consecutive calls to call_gemini_api with no
API errors, starting from the initial state (index 0, counter 0): each call
runs increment_request_count once before reading the key. -/
def callState (n : Nat) : Nat → KeyState
  | 0 => ⟨0, 0⟩
  | k + 1 => increment_request_count n (callState n k)

/-- The credential index used by the k-th error-free call (1-indexed):
call_gemini_api increments first, then builds the client from the current
index. -/
def keyUsed (n k : Nat) : Nat := (callState n k).idx

/-- Outcome of one underlying `client.models.generate_content` attempt,
as classified by the except-chain of call_gemini_api: a parsed success, a
ResourceExhausted exception, a generic exception whose message carries
429/RESOURCE_EXHAUSTED, the restricted-HarmBlockThreshold configuration
error, a 503/overloaded/UNAVAILABLE message, or any other error. -/
inductive ApiOutcome (α : Type) where
  | success (v : α)
  | quota
  | quotaMsg
  | config
  | overload
  | other
deriving DecidableEq

/-- MAX_RETRIES = 5 in call_gemini_api. -/
def MAX_RETRIES : Nat := 5

/-- Result of one call_gemini_api invocation: the returned value (None on
failure), the final global key state, the number of underlying attempts
made, and the number of quota-driven rotations performed inside the retry
loop. -/
structure CallResult (α : Type) where
  result : Option α
  finalState : KeyState
  attemptsMade : Nat
  rotations : Nat
deriving DecidableEq

/-- The `for attempt in range(MAX_RETRIES)` loop of call_gemini_api.
`outcomes i` is the outcome of the i-th underlying attempt (0-indexed).
Quota outcomes rotate the key and retry; overload outcomes back off and
retry; configuration and other errors return None at once; loop exhaustion
returns None. -/
def attemptLoop (n : Nat) (outcomes : Nat → ApiOutcome α) :
    Nat → KeyState → Nat → Nat → CallResult α
  | 0, s, made, rot => ⟨none, s, made, rot⟩
  | fuel + 1, s, made, rot =>
    match outcomes made with
    | .success v => ⟨some v, s, made + 1, rot⟩
    | .quota => attemptLoop n outcomes fuel (rotate_api_key n s) (made + 1) (rot + 1)
    | .quotaMsg => attemptLoop n outcomes fuel (rotate_api_key n s) (made + 1) (rot + 1)
    | .config => ⟨none, s, made + 1, rot⟩
    | .overload => attemptLoop n outcomes fuel s (made + 1) rot
    | .other => ⟨none, s, made + 1, rot⟩

/-- call_gemini_api: increment the per-credential counter (possibly
rotating proactively), bail out with None when the pool is empty, then run
the bounded retry loop. -/
def call_gemini_api (n : Nat) (outcomes : Nat → ApiOutcome α) (s : KeyState) :
    CallResult α :=
  if n = 0 then ⟨none, increment_request_count n s, 0, 0⟩
  else attemptLoop n outcomes MAX_RETRIES (increment_request_count n s) 0 0

/-! ## Embedding of main.analyze_article_batch -/

/-- One classification record of the batch schema. -/
structure AnalysisRec where
  company_info : String
  category : String
  sentiment : String
  nissan_related : String
  nissan_negative : String
deriving DecidableEq

/-- The fixed default record used to pad short batch responses. -/
def defaultRec : AnalysisRec :=
  ⟨"N/A", "N/A", "N/A", "なし", "なし"⟩

/-- analyze_article_batch after the API call, as a function of the parsed
call result (`none` covers both a None result and a non-list result, which
Python treats identically): the Python truthiness test `if result and
isinstance(result, list)` rejects the empty list, then a list shorter than
the input count is extended with default records and truncated to the
input count. -/
def analyze_article_batch (texts : List String)
    (callResult : Option (List AnalysisRec)) : Option (List AnalysisRec) :=
  match callResult with
  | none => none
  | some l =>
    if l = [] then none
    else
      let padded :=
        if l.length < texts.length then
          l ++ List.replicate (texts.length - l.length) defaultRec
        else l
      some (padded.take texts.length)

/-! ## Embedding of comment_scraper.run_comment_collection

A source row is a list of cell strings.  The harvest and the summarizer
are passed in as functions (in the source, fetch_comments_hybrid and the
summarizer_func injected from main.py); the observable effects of one run
are the URLs harvested, the texts handed to the summarizer and the rows
appended to the destination sheet.
-/

/-- The comment-count parser (lines 257-261): strip every non-digit
character from the raw cell and read the rest as a number; an unparsable
cell (the stripped string is empty, where Python int raises) counts as 0,
which the empty fold also yields. -/
def parseCount (s : String) : Nat :=
  (s.data.filter Char.isDigit).foldl (fun n c => n * 10 + (c.toNat - 48)) 0

/-- The no-finding sentinels of the 日産ネガ文 check (line 307). -/
def NEG_SENTINELS : List String := ["なし", "N/A", "N/A(No Body)", "-"]

/-- The eligibility rule of run_comment_collection (lines 294-308), given
the category cell (row[7]), the company cell (row[6]), the negative-text
cell (row[10]) and the parsed comment count: category must not start with
その他 and the count must be positive; then either the company starts with
日産 and the count is at least 100, or the stripped negative text is
non-blank and not a sentinel. -/
def is_target_rule (category company neg : String) (cnt : Nat) : Bool :=
  if (! strStarts category "その他") && decide (0 < cnt) then
    if strStarts company "日産" && decide (100 ≤ cnt) then true
    else decide (pyStrip neg ≠ "") && ! decide (pyStrip neg ∈ NEG_SENTINELS)
  else false

/-- Whether a source row is selected for expensive processing: rows with
fewer than 11 cells are skipped before any rule runs (line 254), rows whose
URL is already in the destination sheet are skipped (line 290), the rest
go through is_target_rule. -/
def rowSelected (existingUrls : List String) (row : List String) : Bool :=
  if row.length < 11 then false
  else if row.getD 0 "" ∈ existingUrls then false
  else is_target_rule (row.getD 7 "") (row.getD 6 "") (row.getD 10 "")
    (parseCount (row.getD 5 ""))

/-- One entry of sorted_target_rows: the parsed count and the row cells
(the original index is only printed, never used, and is omitted). -/
structure TargetItem where
  count : Nat
  data : List String
deriving DecidableEq

/-- The sorted_target_rows list before sorting (lines 253-267): rows with
fewer than 11 cells are dropped, the rest carry their parsed count. -/
def buildTargets (rows : List (List String)) : List TargetItem :=
  rows.filterMap (fun row =>
    if row.length < 11 then none
    else some ⟨parseCount (row.getD 5 ""), row⟩)

/-- The stable descending sort by comment count (line 270; Python
list.sort with reverse=True is stable). -/
def sortedTargets (rows : List (List String)) : List TargetItem :=
  (buildTargets rows).mergeSort (fun a b => decide (b.count ≤ a.count))

/-- The dictionary returned by the injected summarizer, read with
`.get(key, default)` in the source, hence optional fields. -/
structure SummaryData where
  nissan_product_neg : Option String
  summaries : Option (List String)
  topic_ranking : Option (List String)

/-- The observable effects of a run: URLs passed to
fetch_comments_hybrid, texts passed to summarizer_func, and rows appended
to the Comments sheet. -/
structure RunEffects where
  harvested : List String
  summarized : List String
  appended : List (List String)
deriving DecidableEq

/-- A run with no effects. -/
def emptyEffects : RunEffects := ⟨[], [], []⟩

/-- The row written to the destination sheet for a processed article
(lines 321-337): the source metadata, the summary fields with their
fallbacks, then the stored comment chunks. -/
def buildRowData (row : List String) (commentCols : List String)
    (sd : SummaryData) : List String :=
  let prodNeg := sd.nissan_product_neg.getD "N/A"
  let summariesList := sd.summaries.getD []
  let summaryCombined :=
    if summariesList = [] then "-" else String.intercalate "\n\n" summariesList
  let rankingsList := sd.topic_ranking.getD []
  let rankingCombined :=
    if rankingsList = [] then "-" else String.intercalate "\n" rankingsList
  [row.getD 0 "", row.getD 1 "", row.getD 2 "", row.getD 3 "",
   row.getD 5 "", prodNeg, summaryCombined, rankingCombined] ++ commentCols

/-- Processing of one selected row (lines 310-343): harvest the URL; when
the stored chunks are empty nothing further happens for the row; otherwise
the summarizer runs on the Phase-1 text and the built row is appended. -/
def processSelectedRow (harvest : String → List String × String)
    (summarizer : String → SummaryData) (row : List String) : RunEffects :=
  let url := row.getD 0 ""
  let commentCols := (harvest url).1
  let fullTextForAi := (harvest url).2
  if commentCols = [] then ⟨[url], [], []⟩
  else ⟨[url], [fullTextForAi],
        [buildRowData row commentCols (summarizer fullTextForAi)]⟩

/-- One iteration of the `for item in sorted_target_rows` loop. -/
def collectStep (existingUrls : List String)
    (harvest : String → List String × String)
    (summarizer : String → SummaryData) (eff : RunEffects)
    (item : TargetItem) : RunEffects :=
  let row := item.data
  if decide (row.getD 0 "" ∈ existingUrls) then eff
  else if is_target_rule (row.getD 7 "") (row.getD 6 "") (row.getD 10 "")
      item.count then
    let p := processSelectedRow harvest summarizer row
    ⟨eff.harvested ++ p.harvested, eff.summarized ++ p.summarized,
     eff.appended ++ p.appended⟩
  else eff

/-- run_comment_collection on the data rows of the source sheet (header
already removed) and the URL set of the destination sheet: scan the
count-sorted candidates and accumulate the effects.  The existing-URL set
is read once before the loop and never updated inside it, as in the
source. -/
def run_comment_collection (existingUrls : List String)
    (rawDataRows : List (List String))
    (harvest : String → List String × String)
    (summarizer : String → SummaryData) : RunEffects :=
  (sortedTargets rawDataRows).foldl (collectStep existingUrls harvest summarizer)
    emptyEffects

/-! ## Concrete inputs used by the claim theorems and witnesses -/

/-- A comment page scenario for the Phase-1/Phase-2 split: the rendering
client sees 3 comments on page 1 and an empty page 2. -/
def c5FetchR (p : Nat) : Option (List Article) :=
  if p = 1 then
    some [⟨some "A", ["b1"]⟩, ⟨some "B", ["b2"]⟩, ⟨some "C", ["b3"]⟩]
  else some []

/-- The plain client then sees 2 further comments on page 11 (the Phase-2
start page for a 3-record Phase 1). -/
def c5FetchQ (p : Nat) : Option (List Article) :=
  if p = 11 then some [⟨some "D", ["b4"]⟩, ⟨some "E", ["b5"]⟩] else none

/-- An article element with a body of i+1 x characters (all bodies
pairwise distinct). -/
def c8Art (i : Nat) : Article :=
  ⟨some "u", [String.mk (List.replicate (i + 1) 'x')]⟩

/-- A scenario in which Phase 1 collects 25 distinct comments: 10 on page
1, 10 on page 2, 5 on page 3, then an empty page. -/
def c8FetchR (p : Nat) : Option (List Article) :=
  if p = 1 then some ((List.range 10).map c8Art)
  else if p = 2 then some ((List.range 10).map (fun i => c8Art (10 + i)))
  else if p = 3 then some ((List.range 5).map (fun i => c8Art (20 + i)))
  else some []

/-- A plain-client scenario that serves one comment on every page up to
10 and fails beyond: it shows which pages Phase 2 actually requests. -/
def probeQ (p : Nat) : Option (List Article) :=
  if p ≤ 10 then some [⟨some "z", ["zz"]⟩] else none

/-- The two-quota-errors-then-success outcome sequence of the C6 retry
scenario. -/
def quotaThenSuccess (v : Nat) : Nat → ApiOutcome Nat :=
  fun i => if i < 2 then ApiOutcome.quota else ApiOutcome.success v

/-- Three concrete classification records for the batch-padding witness. -/
def c7list : List AnalysisRec :=
  [⟨"a1", "a2", "a3", "a4", "a5"⟩, ⟨"b1", "b2", "b3", "b4", "b5"⟩,
   ⟨"c1", "c2", "c3", "c4", "c5"⟩]

/-- An eligible row: 日産 company attribution, comment count exactly 100,
sentinel negative text (eligibility must come from the count rule). -/
def row100 : List String :=
  ["u1", "t", "d", "s", "x", "100", "日産自動車", "経営", "", "", "なし"]

/-- Same row with count 99: the count rule fails and the sentinel negative
text gives the fall-through rule nothing, so the row is not selected. -/
def row99s : List String :=
  ["u2", "t", "d", "s", "x", "99", "日産自動車", "経営", "", "", "なし"]

/-- Same row with count 99 but a real negative-text finding: selected via
the fall-through rule. -/
def row99n : List String :=
  ["u3", "t", "d", "s", "x", "99", "日産自動車", "経営", "", "", "品質問題あり"]

/-- The dedup invariant carried by the page loops: the accumulator has no
duplicates and every accumulated record is in the seen set. -/
def accInv (seen acc : List String) : Prop :=
  acc.Nodup ∧ ∀ x ∈ acc, x ∈ seen

/-! ## Dedup invariant lemmas -/

lemma stepArticle_inv (st : List String × List String × Nat) (art : Article)
    (h : accInv st.1 st.2.1) :
    accInv (stepArticle st art).1 (stepArticle st art).2.1 := by
  unfold stepArticle
  cases hx : extractFullText art with
  | none => exact h
  | some ft =>
    dsimp only
    by_cases hm : ft ∈ st.1
    · simpa [hm] using h
    · rw [if_neg hm]
      refine ⟨?_, ?_⟩
      · have hnotin : ft ∉ st.2.1 := fun hc => hm (h.2 ft hc)
        simp [List.nodup_append, h.1, hnotin]
      · intro x hx
        rcases List.mem_append.mp hx with hx | hx
        · exact List.mem_cons_of_mem _ (h.2 x hx)
        · simp only [List.mem_singleton] at hx
          subst hx
          exact List.mem_cons_self _ _

lemma foldl_stepArticle_inv (arts : List Article) :
    ∀ st : List String × List String × Nat, accInv st.1 st.2.1 →
      accInv (arts.foldl stepArticle st).1 (arts.foldl stepArticle st).2.1 := by
  induction arts with
  | nil => intro st h; exact h
  | cons a t ih => intro st h; exact ih _ (stepArticle_inv st a h)

lemma processPage_inv (arts : List Article) (seen acc : List String)
    (h : accInv seen acc) :
    accInv (processPage arts seen acc).1 (processPage arts seen acc).2.1 :=
  foldl_stepArticle_inv arts (seen, acc, 0) h

lemma phaseLoop_inv (fetch : Nat → Option (List Article)) :
    ∀ (fuel page : Nat) (seen acc : List String), accInv seen acc →
      accInv (phaseLoop fetch fuel page seen acc).1
        (phaseLoop fetch fuel page seen acc).2 := by
  intro fuel
  induction fuel with
  | zero => intro page seen acc h; exact h
  | succ f ih =>
    intro page seen acc h
    unfold phaseLoop
    cases hf : fetch page with
    | none => exact h
    | some arts =>
      dsimp only
      by_cases he : arts = []
      · simpa [he] using h
      · rw [if_neg he]
        by_cases hz : (processPage arts seen acc).2.2 = 0
        · simpa [hz] using processPage_inv arts seen acc h
        · simp only [hz, if_neg]
          exact ih _ _ _ (processPage_inv arts seen acc h)

lemma phase1Result_inv (driverOk : Bool)
    (fetchR : Nat → Option (List Article)) :
    accInv (phase1Result driverOk fetchR).1 (phase1Result driverOk fetchR).2 := by
  unfold phase1Result
  split
  · exact phaseLoop_inv fetchR MAX_SELENIUM_PAGES 1 [] [] ⟨List.nodup_nil, by simp⟩
  · exact ⟨List.nodup_nil, by simp⟩

/-! ## Chunking lemmas -/

lemma chunks10Go_congr : ∀ (f g : Nat) (l : List String),
    l.length ≤ f → l.length ≤ g → chunks10Go f l = chunks10Go g l := by
  intro f
  induction f with
  | zero =>
    intro g l hf hg
    have : l = [] := List.length_eq_zero.mp (by omega)
    subst this
    cases g <;> rfl
  | succ f ih =>
    intro g l hf hg
    cases l with
    | nil => cases g <;> rfl
    | cons s rest =>
      cases g with
      | zero => simp at hg
      | succ g =>
        simp only [chunks10Go]
        congr 1
        exact ih g (rest.drop 9)
          (by simp only [List.length_drop]; simp at hf; omega)
          (by simp only [List.length_drop]; simp at hg; omega)

lemma chunks10_cons (s : String) (rest : List String) :
    chunks10 (s :: rest) = ((s :: rest).take 10) :: chunks10 (rest.drop 9) := by
  have h : chunks10 (s :: rest)
      = ((s :: rest).take 10) :: chunks10Go rest.length (rest.drop 9) := rfl
  rw [h]
  congr 1
  exact chunks10Go_congr rest.length (rest.drop 9).length (rest.drop 9)
    (by simp only [List.length_drop]; omega) (le_refl _)

lemma chunks10_eq_nil (l : List String) : chunks10 l = [] ↔ l = [] := by
  cases l with
  | nil => simp [chunks10, chunks10Go]
  | cons s rest => simp [chunks10_cons]

lemma chunks10_join_fuel : ∀ (n : Nat) (l : List String), l.length ≤ n →
    (chunks10 l).flatten = l := by
  intro n
  induction n with
  | zero =>
    intro l h
    have : l = [] := List.length_eq_zero.mp (by omega)
    subst this
    rfl
  | succ n ih =>
    intro l h
    cases l with
    | nil => rfl
    | cons s rest =>
      rw [chunks10_cons, List.flatten_cons,
        ih (rest.drop 9) (by simp only [List.length_drop]; simp at h; omega)]
      have hdr : rest.drop 9 = (s :: rest).drop 10 := rfl
      rw [hdr, List.take_append_drop]

lemma chunks10_join (l : List String) : (chunks10 l).flatten = l :=
  chunks10_join_fuel l.length l (le_refl _)

lemma chunks10_mem_fuel : ∀ (n : Nat) (l : List String), l.length ≤ n →
    ∀ c ∈ chunks10 l, c ≠ [] ∧ c.length ≤ 10 := by
  intro n
  induction n with
  | zero =>
    intro l h
    have : l = [] := List.length_eq_zero.mp (by omega)
    subst this
    simp [chunks10, chunks10Go]
  | succ n ih =>
    intro l h c hc
    cases l with
    | nil => simp [chunks10, chunks10Go] at hc
    | cons s rest =>
      rw [chunks10_cons] at hc
      rcases List.mem_cons.mp hc with hc | hc
      · subst hc
        exact ⟨by simp, List.length_take_le 10 (s :: rest)⟩
      · exact ih (rest.drop 9)
          (by simp only [List.length_drop]; simp at h; omega) c hc

lemma chunks10_mem (l : List String) :
    ∀ c ∈ chunks10 l, c ≠ [] ∧ c.length ≤ 10 :=
  chunks10_mem_fuel l.length l (le_refl _)

lemma chunks10_full_fuel : ∀ (n : Nat) (l : List String), l.length ≤ n →
    ∀ i, i + 1 < (chunks10 l).length → ((chunks10 l).getD i []).length = 10 := by
  intro n
  induction n with
  | zero =>
    intro l h
    have : l = [] := List.length_eq_zero.mp (by omega)
    subst this
    simp [chunks10, chunks10Go]
  | succ n ih =>
    intro l h i hi
    cases l with
    | nil => simp [chunks10, chunks10Go] at hi
    | cons s rest =>
      rw [chunks10_cons] at hi ⊢
      cases i with
      | zero =>
        simp only [List.length_cons] at hi
        have hne : chunks10 (rest.drop 9) ≠ [] := by
          intro hnil
          rw [hnil] at hi
          simp at hi
        have hrest : rest.drop 9 ≠ [] := by
          intro hnil
          exact hne ((chunks10_eq_nil _).mpr hnil)
        have hlen : 9 < rest.length := by
          by_contra hle
          exact hrest (List.drop_eq_nil_of_le (by omega))
        simp only [List.getD_cons_zero, List.length_take, List.length_cons]
        omega
      | succ j =>
        simp only [List.getD_cons_succ]
        exact ih (rest.drop 9)
          (by simp only [List.length_drop]; simp at h; omega) j (by simpa using hi)

lemma chunks10_full (l : List String) :
    ∀ i, i + 1 < (chunks10 l).length → ((chunks10 l).getD i []).length = 10 :=
  chunks10_full_fuel l.length l (le_refl _)

/-! ## Credential state lemmas -/

lemma callState_closed (n : Nat) (hn : 0 < n) :
    ∀ k, callState n k = ⟨k / 20 % n, k % 20⟩ := by
  intro k
  induction k with
  | zero => simp [callState]
  | succ k ih =>
    rw [callState, ih]
    unfold increment_request_count rotate_api_key
    rw [if_neg (by omega)]
    simp only [MAX_REQUESTS_BEFORE_ROTATE]
    by_cases h20 : k % 20 = 19
    · rw [if_pos (by omega), if_neg (by omega)]
      have h1 : (k + 1) / 20 = k / 20 + 1 := by omega
      have h2 : (k + 1) % 20 = 0 := by omega
      rw [h1, h2]
      exact congrArg (fun i => KeyState.mk i 0)
        (Nat.ModEq.add_right 1 (Nat.mod_modEq (k / 20) n))
    · rw [if_neg (by omega)]
      have h1 : (k + 1) / 20 = k / 20 := by omega
      have h2 : (k + 1) % 20 = k % 20 + 1 := by omega
      rw [h1, h2]

/-! ## Target-selection lemmas -/

lemma is_target_rule_iff (category company neg : String) (cnt : Nat) :
    is_target_rule category company neg cnt = true ↔
      (¬ strStarts category "その他" = true ∧ 0 < cnt ∧
       ((strStarts company "日産" = true ∧ 100 ≤ cnt) ∨
        (pyStrip neg ≠ "" ∧ pyStrip neg ∉ NEG_SENTINELS))) := by
  unfold is_target_rule
  by_cases h1 : strStarts category "その他" = true <;>
    by_cases h2 : 0 < cnt <;>
      by_cases h3 : strStarts company "日産" = true <;>
        by_cases h4 : 100 ≤ cnt <;>
          by_cases h5 : pyStrip neg = "" <;>
            by_cases h6 : pyStrip neg ∈ NEG_SENTINELS <;>
              simp_all

lemma buildTargets_filter (raw : List (List String)) :
    buildTargets (raw.filter (fun r => decide (11 ≤ r.length))) = buildTargets raw := by
  induction raw with
  | nil => rfl
  | cons r t ih =>
    unfold buildTargets at ih ⊢
    by_cases h : 11 ≤ r.length
    · rw [List.filter_cons_of_pos (by simpa using h), List.filterMap_cons,
        List.filterMap_cons]
      rw [if_neg (by omega)]
      rw [ih]
    · rw [List.filter_cons_of_neg (by simpa using h), List.filterMap_cons]
      rw [if_pos (by omega)]
      exact ih

/-! ## Collection-run lemmas -/

lemma buildRowData_url (row : List String) (commentCols : List String)
    (sd : SummaryData) : (buildRowData row commentCols sd).getD 0 "" = row.getD 0 "" :=
  rfl

lemma collect_fold_no_url (existingUrls : List String)
    (harvest : String → List String × String)
    (summarizer : String → SummaryData) (u : String)
    (hu : (harvest u).1 = []) :
    ∀ (items : List TargetItem) (eff : RunEffects),
      u ∉ eff.appended.map (fun r => r.getD 0 "") →
      u ∉ ((items.foldl (collectStep existingUrls harvest summarizer) eff).appended.map
            (fun r => r.getD 0 "")) := by
  intro items
  induction items with
  | nil => intro eff h; exact h
  | cons it t ih =>
    intro eff h
    apply ih
    simp only [collectStep]
    split
    · exact h
    · split
      · intro hc
        simp only [List.map_append, List.mem_append] at hc
        rcases hc with hc | hc
        · exact h hc
        · simp only [processSelectedRow] at hc
          by_cases hurl : it.data.getD 0 "" = u
          · rw [hurl, hu] at hc
            simp at hc
          · split at hc
            · simp at hc
            · simp only [List.map_cons, List.map_nil, List.mem_singleton,
                buildRowData_url] at hc
              exact hurl hc.symm
      · exact h

lemma getD_replicate_self (a : AnalysisRec) :
    ∀ (k j : Nat), (List.replicate k a).getD j a = a := by
  intro k
  induction k with
  | zero => intro j; simp
  | succ k ih =>
    intro j
    cases j with
    | zero => simp [List.replicate]
    | succ j =>
      simp only [List.replicate, List.getD_cons_succ]
      exact ih j

/-! ## Claim theorems -/

/-- C1: evaluation of the Phase-2 start-page code at the failing input.
When the rendering client fails to initialize, the Phase-1 item count is 0
and the source computes start_page = 11 (the clamp at
MAX_SELENIUM_PAGES + 1 on line 165 fires), not page 1 as the claim states:
a run with the driver down and comments available on pages 1 through 10
collects nothing.  The clamp also overrides the item-count formula for
every Phase-1 count up to 100. -/
theorem claim_c1_start_page_eval :
    startPage 0 = 11 ∧ startPage 25 = 11 ∧ startPage 100 = 11 ∧
    (hybridState false (fun _ => none) probeQ 50).2 = [] ∧
    (fetch_comments_hybrid false (fun _ => none) probeQ 50).1 = [] := by
  decide

/-- C2 counterexample: with 5 credentials and no errors, the 20th call
already uses credential 1, so the first 20 calls do not all use the
initial credential and the 21st is not the first rotated call. -/
theorem claim_c2_counterexample :
    keyUsed 5 20 = 1 ∧ keyUsed 5 19 = 0 := by decide

/-- C2 (amended): with a pool of n credentials and no API errors, the
global state after k calls is index k / 20 mod n with counter k mod 20;
hence calls 1 through 19 use the initial credential, the 20th call is the
first to use the next credential (the rotation happens when the counter
reaches 20, before that call goes out), the counter is reset to 0 by the
rotation, and after each credential has served its 20 calls the cursor
wraps back to the first credential. -/
theorem claim_c2_amended (n : Nat) (hn : 0 < n) :
    (∀ k, callState n k = ⟨k / 20 % n, k % 20⟩) ∧
    (∀ k, 1 ≤ k → k ≤ 19 → keyUsed n k = 0) ∧
    keyUsed n 20 = 1 % n ∧
    (callState n 20).cnt = 0 ∧
    keyUsed n (20 * n) = 0 := by
  refine ⟨callState_closed n hn, ?_, ?_, ?_, ?_⟩
  · intro k h1 h19
    unfold keyUsed
    rw [callState_closed n hn]
    have hk : k / 20 = 0 := by omega
    simp [hk]
  · unfold keyUsed
    rw [callState_closed n hn]
  · rw [callState_closed n hn]
  · unfold keyUsed
    rw [callState_closed n hn]
    have h1 : 20 * n / 20 = n := by omega
    have h2 : n % n = 0 := Nat.mod_self n
    simp [h1, h2]

/-- C2 witness: the amended theorem applied to the concrete pool of 5
credentials. -/
theorem claim_c2_amended_witness :
    keyUsed 5 20 = 1 % 5 ∧ keyUsed 5 (20 * 5) = 0 :=
  ⟨(claim_c2_amended 5 (by decide)).2.2.1,
   (claim_c2_amended 5 (by decide)).2.2.2.2⟩

/-- C3: for every run of fetch_comments_hybrid the two-phase accumulator
(whose 10-element chunks form stored_chunks) contains no duplicate dedup
key: every record is checked against and then added to the shared seen
set, in Phase 1 and Phase 2 alike. -/
theorem claim_c3_dedup_exact (driverOk : Bool)
    (fetchR fetchQ : Nat → Option (List Article)) (fuel2 : Nat) :
    ((hybridState driverOk fetchR fetchQ fuel2).2).Nodup ∧
    (fetch_comments_hybrid driverOk fetchR fetchQ fuel2).1
      = (chunks10 (hybridState driverOk fetchR fetchQ fuel2).2).map
          (String.intercalate "\n\n") := by
  refine ⟨?_, rfl⟩
  exact (phaseLoop_inv fetchQ fuel2 _ _ _ (phase1Result_inv driverOk fetchR)).1

/-- C5: the ai_text component of fetch_comments_hybrid is the
newline-join of exactly the Phase-1 records, in discovery order; it does
not depend on the Phase-2 client at all, and in the concrete scenario
where Phase 1 yields 3 records and Phase 2 adds 2 more, ai_text joins
exactly the 3. -/
theorem claim_c5_ai_text :
    (∀ (driverOk : Bool) (fetchR fetchQ fetchQ' : Nat → Option (List Article))
       (f f' : Nat),
       (fetch_comments_hybrid driverOk fetchR fetchQ f).2
         = (fetch_comments_hybrid driverOk fetchR fetchQ' f').2) ∧
    (∀ (driverOk : Bool) (fetchR fetchQ : Nat → Option (List Article)) (f : Nat),
       (fetch_comments_hybrid driverOk fetchR fetchQ f).2
         = String.intercalate "\n" (phase1Result driverOk fetchR).2) ∧
    ((phase1Result true c5FetchR).2.length = 3 ∧
     (hybridState true c5FetchR c5FetchQ 5).2.length = 5 ∧
     (fetch_comments_hybrid true c5FetchR c5FetchQ 5).2
       = "【投稿者: A】\nb1\n【投稿者: B】\nb2\n【投稿者: C】\nb3") := by
  refine ⟨fun _ _ _ _ _ _ => rfl, fun _ _ _ _ => rfl, by decide, by decide, by decide⟩

/-- C4: a source row with at least 11 cells is selected for expensive
processing exactly when its URL is not in the destination sheet, its
category does not start with その他, its parsed comment count is positive,
and either the company cell starts with 日産 with count at least 100, or
the stripped negative text is non-blank and not a no-finding sentinel;
the boundary rows show that count 100 is eligible under the count rule
while count 99 falls through to the negative-text check. -/
theorem claim_c4_eligibility :
    (∀ (existingUrls : List String) (row : List String), 11 ≤ row.length →
      (rowSelected existingUrls row = true ↔
        (row.getD 0 "" ∉ existingUrls ∧
         ¬ strStarts (row.getD 7 "") "その他" = true ∧
         0 < parseCount (row.getD 5 "") ∧
         ((strStarts (row.getD 6 "") "日産" = true ∧
             100 ≤ parseCount (row.getD 5 "")) ∨
          (pyStrip (row.getD 10 "") ≠ "" ∧
             pyStrip (row.getD 10 "") ∉ NEG_SENTINELS))))) ∧
    rowSelected [] row100 = true ∧
    rowSelected [] row99s = false ∧
    rowSelected [] row99n = true ∧
    parseCount "1,234" = 1234 ∧ parseCount "abc" = 0 ∧ parseCount "" = 0 := by
  refine ⟨?_, by decide, by decide, by decide, by decide, by decide, by decide⟩
  intro existingUrls row h
  unfold rowSelected
  rw [if_neg (by omega)]
  by_cases hmem : row.getD 0 "" ∈ existingUrls
  · rw [if_pos hmem]
    constructor
    · intro hfalse
      exact absurd hfalse (by simp)
    · rintro ⟨hnot, -⟩
      exact absurd hmem hnot
  · rw [if_neg hmem, is_target_rule_iff]
    constructor
    · intro h'
      exact ⟨hmem, h'⟩
    · rintro ⟨-, h'⟩
      exact h'

/-- C4 witness: the characterization applied to the concrete eligible
boundary row with count 100. -/
theorem claim_c4_witness :
    rowSelected [] row100 = true ↔
      (row100.getD 0 "" ∉ ([] : List String) ∧
       ¬ strStarts (row100.getD 7 "") "その他" = true ∧
       0 < parseCount (row100.getD 5 "") ∧
       ((strStarts (row100.getD 6 "") "日産" = true ∧
           100 ≤ parseCount (row100.getD 5 "")) ∨
        (pyStrip (row100.getD 10 "") ≠ "" ∧
           pyStrip (row100.getD 10 "") ∉ NEG_SENTINELS))) :=
  claim_c4_eligibility.1 [] row100 (by decide)

/-- C6: on two consecutive quota errors followed by a success, the
orchestrator rotates the cursor exactly twice inside the retry loop, makes
exactly 3 underlying attempts and returns the parsed success; and when
every attempt raises a quota error the retry budget of MAX_RETRIES = 5 is
exhausted and the call returns None after exactly 5 attempts. -/
theorem claim_c6_quota_retry (n : Nat) (hn : 0 < n) (s : KeyState) (v : Nat) :
    ((call_gemini_api n (quotaThenSuccess v) s).result = some v ∧
     (call_gemini_api n (quotaThenSuccess v) s).attemptsMade = 3 ∧
     (call_gemini_api n (quotaThenSuccess v) s).rotations = 2) ∧
    (∀ outcomes : Nat → ApiOutcome Nat,
      (∀ i, i < MAX_RETRIES → outcomes i = ApiOutcome.quota) →
      (call_gemini_api n outcomes s).result = none ∧
      (call_gemini_api n outcomes s).attemptsMade = MAX_RETRIES) := by
  constructor
  · unfold call_gemini_api
    rw [if_neg (by omega)]
    exact ⟨rfl, rfl, rfl⟩
  · intro outcomes h
    have h0 := h 0 (by decide)
    have h1 := h 1 (by decide)
    have h2 := h 2 (by decide)
    have h3 := h 3 (by decide)
    have h4 := h 4 (by decide)
    unfold call_gemini_api
    rw [if_neg (by omega)]
    show (attemptLoop n outcomes 5 _ 0 0).result = none ∧
      (attemptLoop n outcomes 5 _ 0 0).attemptsMade = 5
    simp [attemptLoop, h0, h1, h2, h3, h4]

/-- C6 witness: the retry scenario run from the initial key state with a
pool of 5 credentials. -/
theorem claim_c6_witness :
    (call_gemini_api 5 (quotaThenSuccess 7) ⟨0, 0⟩).result = some 7 ∧
    (call_gemini_api 5 (quotaThenSuccess 7) ⟨0, 0⟩).attemptsMade = 3 ∧
    (call_gemini_api 5 (quotaThenSuccess 7) ⟨0, 0⟩).rotations = 2 :=
  (claim_c6_quota_retry 5 (by decide) ⟨0, 0⟩ 7).1

/-- C7 counterexample: a successful batch call over 5 inputs that returns
the empty list is not padded to 5 default records; the Python truthiness
test `if result and isinstance(result, list)` rejects the empty list and
the function returns None. -/
theorem claim_c7_counterexample :
    analyze_article_batch ["t1", "t2", "t3", "t4", "t5"] (some []) = none := by
  decide

/-- C7 (amended): when a successful batch call over N inputs returns a
NON-EMPTY list shorter than N, the tail is padded with the fixed default
record so the result has exactly N entries, entry i corresponding to
input i; an empty returned list is instead treated as a failed call and
yields None (the caller then falls back to per-item analysis). -/
theorem claim_c7_amended (texts : List String) (l : List AnalysisRec)
    (hne : l ≠ []) (hlt : l.length < texts.length) :
    analyze_article_batch texts (some l)
      = some (l ++ List.replicate (texts.length - l.length) defaultRec) ∧
    (l ++ List.replicate (texts.length - l.length) defaultRec).length
      = texts.length ∧
    (∀ i, i < l.length →
      (l ++ List.replicate (texts.length - l.length) defaultRec).getD i defaultRec
        = l.getD i defaultRec) ∧
    (∀ i, l.length ≤ i → i < texts.length →
      (l ++ List.replicate (texts.length - l.length) defaultRec).getD i defaultRec
        = defaultRec) := by
  have hlen : (l ++ List.replicate (texts.length - l.length) defaultRec).length
      = texts.length := by
    simp only [List.length_append, List.length_replicate]
    omega
  refine ⟨?_, hlen, ?_, ?_⟩
  · unfold analyze_article_batch
    dsimp only
    rw [if_neg hne, if_pos hlt]
    rw [List.take_of_length_le (le_of_eq hlen)]
  · intro i hi
    exact List.getD_append _ _ _ _ hi
  · intro i hge hlt2
    rw [List.getD_append_right _ _ _ _ hge]
    exact getD_replicate_self defaultRec _ _

/-- C7 witness: a 3-record response to a 5-input batch is padded with two
default records. -/
theorem claim_c7_witness :
    analyze_article_batch ["t1", "t2", "t3", "t4", "t5"] (some c7list)
      = some (c7list ++ List.replicate 2 defaultRec) := by
  have h := (claim_c7_amended ["t1", "t2", "t3", "t4", "t5"] c7list
    (by decide) (by decide)).1
  simpa using h

/-- C8: stored_chunks is the blank-line join of the accumulator sliced
into consecutive chunks of 10 in discovery order (the chunks concatenate
back to the accumulator, every chunk is non-empty with at most 10 records,
and every chunk except the last has exactly 10); in the concrete run whose
accumulator has 25 records, stored_chunks has length 3 with underlying
chunk sizes 10, 10, 5. -/
theorem claim_c8_chunking :
    (∀ l : List String, (chunks10 l).flatten = l) ∧
    (∀ (l c : List String), c ∈ chunks10 l → c ≠ [] ∧ c.length ≤ 10) ∧
    (∀ (l : List String) (i : Nat), i + 1 < (chunks10 l).length →
      ((chunks10 l).getD i []).length = 10) ∧
    (∀ (driverOk : Bool) (fetchR fetchQ : Nat → Option (List Article)) (f : Nat),
      (fetch_comments_hybrid driverOk fetchR fetchQ f).1
        = (chunks10 (hybridState driverOk fetchR fetchQ f).2).map
            (String.intercalate "\n\n")) ∧
    ((hybridState true c8FetchR (fun _ => none) 1).2.length = 25 ∧
     (chunks10 (hybridState true c8FetchR (fun _ => none) 1).2).map List.length
       = [10, 10, 5] ∧
     (fetch_comments_hybrid true c8FetchR (fun _ => none) 1).1.length = 3) := by
  refine ⟨chunks10_join, chunks10_mem, chunks10_full, fun _ _ _ _ => rfl,
    by decide, by decide, by decide⟩

/-- C8 witness: the non-last-chunk-is-full part applied to a concrete
11-record list, whose first chunk has exactly 10 records. -/
theorem claim_c8_witness :
    ((chunks10 (List.replicate 11 "a")).getD 0 []).length = 10 :=
  claim_c8_chunking.2.2.1 (List.replicate 11 "a") 0 (by decide)

/-- C9: a selected row whose harvest yields zero stored chunks triggers no
summarizer call and appends no destination row (only the harvest itself is
observed); consequently a URL whose harvest is empty never appears in the
first column of the appended rows, so it is not recorded as processed and
remains a candidate on the next run. -/
theorem claim_c9_empty_harvest :
    (∀ (harvest : String → List String × String)
       (summarizer : String → SummaryData) (row : List String),
       (harvest (row.getD 0 "")).1 = [] →
       processSelectedRow harvest summarizer row = ⟨[row.getD 0 ""], [], []⟩) ∧
    (∀ (existingUrls : List String) (rawDataRows : List (List String))
       (harvest : String → List String × String)
       (summarizer : String → SummaryData) (u : String),
       (harvest u).1 = [] →
       u ∉ ((run_comment_collection existingUrls rawDataRows harvest
              summarizer).appended.map (fun r => r.getD 0 ""))) := by
  constructor
  · intro harvest summarizer row h
    simp only [processSelectedRow]
    rw [if_pos h]
  · intro existingUrls rawDataRows harvest summarizer u hu
    exact collect_fold_no_url existingUrls harvest summarizer u hu
      (sortedTargets rawDataRows) emptyEffects (by simp [emptyEffects])

/-- C9 witness: a harvest that returns no chunks leaves only the harvest
record, and the harvested URL stays out of the appended first column even
for an otherwise fully eligible source row. -/
theorem claim_c9_witness :
    processSelectedRow (fun _ => ([], "t")) (fun _ => ⟨none, none, none⟩) ["u1"]
      = ⟨["u1"], [], []⟩ ∧
    "u1" ∉ ((run_comment_collection []
        [["u1", "t", "d", "s", "x", "100", "日産", "経営", "", "", "x"]]
        (fun _ => ([], "t")) (fun _ => ⟨none, none, none⟩)).appended.map
          (fun r => r.getD 0 "")) :=
  ⟨claim_c9_empty_harvest.1 _ _ _ rfl,
   claim_c9_empty_harvest.2 _ _ _ _ _ rfl⟩

/-- C10: source rows with fewer than 11 cells are dropped by target
selection before any eligibility rule runs: a run over the raw rows equals
the run over only the rows with at least 11 cells, and a run over a single
short row harvests nothing, summarizes nothing and appends nothing,
whatever its cell contents. -/
theorem claim_c10_short_rows :
    (∀ (existingUrls : List String) (rawDataRows : List (List String))
       (harvest : String → List String × String)
       (summarizer : String → SummaryData),
       run_comment_collection existingUrls rawDataRows harvest summarizer
         = run_comment_collection existingUrls
             (rawDataRows.filter (fun r => decide (11 ≤ r.length)))
             harvest summarizer) ∧
    (∀ (existingUrls : List String) (harvest : String → List String × String)
       (summarizer : String → SummaryData) (row : List String),
       row.length < 11 →
       run_comment_collection existingUrls [row] harvest summarizer
         = emptyEffects) := by
  constructor
  · intro existingUrls rawDataRows harvest summarizer
    unfold run_comment_collection sortedTargets
    rw [buildTargets_filter]
  · intro existingUrls harvest summarizer row hrow
    unfold run_comment_collection sortedTargets buildTargets
    simp [hrow]

/-- C10 witness: a one-cell row (short of the 11-cell minimum) produces a
run with no effects. -/
theorem claim_c10_witness :
    run_comment_collection [] [["onlyUrl"]] (fun _ => ([], "t"))
      (fun _ => ⟨none, none, none⟩) = emptyEffects :=
  claim_c10_short_rows.2 [] (fun _ => ([], "t")) (fun _ => ⟨none, none, none⟩)
    ["onlyUrl"] (by decide)

end YahooNews
